import Mathlib

/-
Verification of the parameter-resolution and execution-planning subsystem of
the ACIS-iChatBio repository (an Atlas of Living Australia conversational
agent).

The development shallowly embeds:
  * the two-phase tool-execution coordinator of
    `UnifiedALAReActAgent.run` (ala_ichatbio_agent.py, the loops over
    must_call and optional planned tools);
  * the planning fallback of `ALAiChatBioAgent.create_research_plan`;
  * the temporal-parameter validator `ALASearchResponse.validate_params`
    (parameter_extractor.py);
  * the Redis-backed species resolver `ALAParameterResolver`
    (parameter_resolver.py): key helpers, LSID detection, multi-key storage,
    cache-only resolution, the dual scientific/vernacular API fallback with
    its priority rule, negative caching, and `resolve_unresolved_params`.

External collaborators (the ALA name-matching endpoints
`search_scientific_name` / `search_vernacular_name` and the Redis client) are
modelled as explicit parameters: the endpoints as functions returning the
parsed response record, the Redis client as an association-list store whose
operations can fail (is `down`), since the Python redis client raises on an
unavailable server and the resolver installs no exception handler.
Exceptions are modelled with `Except`; `async` sequencing is irrelevant
(single-task, sequential awaits) and is dropped.
-/

/-! ## Tool-execution coordinator (`UnifiedALAReActAgent.run`, Step 7) -/

/-- A planned tool invocation: the `ToolPlan` pydantic model of
ala_ichatbio_agent.py (`tool_name`, `priority` in must_call | optional,
free-text `reason`). -/
structure ToolPlan where
  tool_name : String
  priority : String
  reason : String
deriving Repr, DecidableEq

/-- Result of invoking one tool adapter: the adapters return a dict with
`success` and `message`; an adapter may also raise, which the coordinator
converts into a failed outcome (`except Exception as e` around the call). -/
inductive ToolResult where
  | ok (msg : String)
  | fail (msg : String)
  | exc (msg : String)
deriving Repr, DecidableEq

/-- `result.get("success")` truthiness; a raised exception is converted to a
dict with `success: False`. -/
def succOf : ToolResult → Bool
  | .ok _ => true
  | .fail _ => false
  | .exc _ => false

/-- Whether the invocation raised (in which case `executed_tools.append` is
skipped, since the append sits after the call inside the `try`). -/
def raisedOf : ToolResult → Bool
  | .exc _ => true
  | _ => false

/-- `result.get('message', 'Unknown error')`; for a raised exception the
coordinator builds `f"Tool {tool_name} raised exception: {e}"`. -/
def msgOf (n : String) : ToolResult → String
  | .ok m => m
  | .fail m => m
  | .exc e => "Tool " ++ n ++ " raised exception: " ++ e

/-- The fixed adapter registry `tool_map` of Step 6 of
`UnifiedALAReActAgent.run`. -/
def toolMapNames : List String :=
  ["search_species_occurrences", "get_species_images", "lookup_species_info",
   "get_species_distribution", "get_occurrence_breakdown",
   "get_occurrence_taxa_count", "finish"]

/-- Observable trace of one coordinator run: the tool invocations in order,
the `executed_tools` list, the coordinator-level `context.reply` messages,
and whether Phase 3 (overall completion) was reached. -/
structure RunTrace where
  invoked : List String
  executed : List String
  replies : List String
  completed : Bool
deriving Repr, DecidableEq

/-- Result of Phase 1: either an abort (unregistered must-call tool, or a
must-call failure — both `return` from `run`) or fall-through to Phase 2. -/
inductive P1Out where
  | abort (executed invoked : List String) (reply : String)
  | next (executed invoked : List String)
deriving Repr, DecidableEq

/-- Phase 1 of `UnifiedALAReActAgent.run`: iterate must_call entries in plan
order; skip an entry whose name is in `executed_tools`; an unregistered name
aborts with the "not implemented" reply; invoke the adapter (a raise becomes
a failed result and is not appended to `executed_tools`); on failure reply
with the failure message and stop. `beh` gives each adapter invocation's
outcome. -/
def phase1 (beh : String → ToolResult) :
    List ToolPlan → List String → List String → P1Out
  | [], ex, inv => .next ex inv
  | t :: rest, ex, inv =>
    if ex.contains t.tool_name then
      phase1 beh rest ex inv
    else if !toolMapNames.contains t.tool_name then
      .abort ex inv ("Error: Planned tool \x27" ++ t.tool_name ++ "\x27 is not implemented.")
    else
      let r := beh t.tool_name
      let inv' := inv ++ [t.tool_name]
      let ex' := if raisedOf r then ex else ex ++ [t.tool_name]
      if succOf r then phase1 beh rest ex' inv'
      else .abort ex' inv' ("Required operation failed: " ++ msgOf t.tool_name r)

/-- Phase 2 of `UnifiedALAReActAgent.run`: iterate optional entries with the
same dedup; an unregistered optional name is skipped (logged), and a failed
or raising optional invocation is logged and execution continues. Returns
the final `executed_tools` and invocation trace. -/
def phase2 (beh : String → ToolResult) :
    List ToolPlan → List String → List String → List String × List String
  | [], ex, inv => (ex, inv)
  | t :: rest, ex, inv =>
    if ex.contains t.tool_name then
      phase2 beh rest ex inv
    else if !toolMapNames.contains t.tool_name then
      phase2 beh rest ex inv
    else
      let r := beh t.tool_name
      let inv' := inv ++ [t.tool_name]
      let ex' := if raisedOf r then ex else ex ++ [t.tool_name]
      phase2 beh rest ex' inv'

/-- Step 7 of `UnifiedALAReActAgent.run`: split the plan into must_call and
optional entries, run Phase 1, and only if it falls through run Phase 2 and
reach Phase 3 (completion). -/
def runPlan (beh : String → ToolResult) (plan : List ToolPlan) : RunTrace :=
  let mc := plan.filter (fun t => t.priority == "must_call")
  let opt := plan.filter (fun t => t.priority == "optional")
  match phase1 beh mc [] [] with
  | .abort ex inv reply => ⟨inv, ex, [reply], false⟩
  | .next ex inv =>
    let (ex', inv') := phase2 beh opt ex inv
    ⟨inv', ex', [], true⟩

/-! ## Execution planner fallback (`ALAiChatBioAgent.create_research_plan`) -/

/-- The `ResearchPlan` pydantic model. -/
structure ResearchPlan where
  query_type : String
  species_mentioned : List String
  tools_planned : List ToolPlan
deriving Repr, DecidableEq

/-- Outcome of `chain.ainvoke` (the planning LLM call): a parsed plan, an
`asyncio.CancelledError`, or any other exception (model error, schema
violation, timeout). -/
inductive ChainOutcome where
  | ok (p : ResearchPlan)
  | cancelled
  | exc (msg : String)
deriving Repr, DecidableEq

/-- What `create_research_plan` does: returns a plan, or re-raises the
cancellation. -/
inductive PlanResult where
  | returned (p : ResearchPlan)
  | raisedCancelled
deriving Repr, DecidableEq

/-- The fixed fallback plan built in the `except Exception` branch of
`create_research_plan`. -/
def fallback_plan (species_names : List String) : ResearchPlan :=
  { query_type := if species_names.length ≤ 1 then "singlespecies" else "comparison"
  , species_mentioned := if species_names.isEmpty then ["unknown"] else species_names
  , tools_planned :=
      [ ⟨"lookup_species_info", "must_call", "Get species taxonomy and metadata"⟩
      , ⟨"search_species_occurrences", "must_call", "Occurrence data search for species"⟩ ] }

/-- `ALAiChatBioAgent.create_research_plan`: return the parsed plan on
success; `except asyncio.CancelledError: raise`; `except Exception` falls
back to `fallback_plan`. -/
def create_research_plan (species_names : List String) (chain : ChainOutcome) : PlanResult :=
  match chain with
  | .ok p => .returned p
  | .cancelled => .raisedCancelled
  | .exc _ => .returned (fallback_plan species_names)

/-! ## Species resolver (`ALAParameterResolver`, parameter_resolver.py) -/

/-- Character-list ASCII lowercasing; models Python `str.lower()` (the
strings involved — names, keys, LSID URLs — are ASCII). -/
def lowerStr (s : String) : String := String.mk (s.data.map Char.toLower)

/-- Substring test on the underlying character lists; models Python
`pat in s`. -/
def charsContain (pat : List Char) : List Char → Bool
  | [] => pat.isEmpty
  | c :: cs => pat.isPrefixOf (c :: cs) || charsContain pat cs

/-- `pat in s` (Python substring containment). -/
def strContainsSub (s pat : String) : Bool := charsContain pat.data s.data

/-- `s.startswith(p)` on the underlying character lists. -/
def strStartsWith (s p : String) : Bool := p.data.isPrefixOf s.data

/-- A parsed ALA name-matching JSON record (`Dict[str, Any]`), restricted to
the fields the resolver reads. `none` models an absent key; `some ""` a
present-but-empty value (both are falsy in Python). -/
structure AlaRecord where
  scientificName : Option String := none
  vernacularName : Option String := none
  taxonConceptID : Option String := none
  synonymType : Option String := none
  success : Bool := false
  matchType : Option String := none
  nameType : Option String := none
  rank : Option String := none
  family : Option String := none
  genus : Option String := none
  kingdom : Option String := none
  species : Option String := none
  noMatch : Bool := false
  issues : List String := []
deriving Repr, DecidableEq

/-- Python truthiness of `d.get(field)` for a string-valued field. -/
def truthy : Option String → Bool
  | none => false
  | some s => !s.isEmpty

/-- The Redis keyspace: an association list, later writes shadowing earlier
ones (`find?` reads the newest write, so reads agree with a key-value
store). -/
abbrev Store := List (String × AlaRecord)

/-- `redis.get` when the server is reachable; `None`/miss is `none`. -/
def storeGet (st : Store) (k : String) : Option AlaRecord :=
  match st.find? (fun kv => kv.1 == k) with
  | some kv => some kv.2
  | none => none

/-- `redis.set key (json.dumps value)`. -/
def storeSet (st : Store) (k : String) (v : AlaRecord) : Store := (k, v) :: st

/-- `ALAParameterResolver._redis_get`: no exception handler, so when the
Redis client is `down` the `ConnectionError` raised by `redis.get`
propagates. -/
def redis_get (down : Bool) (st : Store) (k : String) : Except String (Option AlaRecord) :=
  if down then .error "redis ConnectionError" else .ok (storeGet st k)

/-- `ALAParameterResolver._redis_set`: likewise no exception handler. -/
def redis_set (down : Bool) (st : Store) (k : String) (v : AlaRecord) : Except String Store :=
  if down then .error "redis ConnectionError" else .ok (storeSet st k v)

/-- `_key_scientific`. -/
def key_scientific (n : String) : String := "scientific:" ++ lowerStr n

/-- `_key_vernacular`. -/
def key_vernacular (n : String) : String := "vernacular:" ++ lowerStr n

/-- `_key_synonym`. -/
def key_synonym (n : String) : String := "synonym:" ++ lowerStr n

/-- `_key_lsid` (note: no lowercasing). -/
def key_lsid (l : String) : String := "lsid:" ++ l

/-- `_key_no_match`. -/
def key_no_match (n : String) : String := "noMatch:" ++ lowerStr n

/-- `ALAParameterResolver._is_lsid`: the three fixed LSID URI prefixes. -/
def is_lsid (v : String) : Bool :=
  strStartsWith v "https://biodiversity.org.au/afd/taxa/" ||
  strStartsWith v "https://id.biodiversity.org.au/taxon/" ||
  strStartsWith v "https://biodiversity.org.au/apni/"

/-- `ALAParameterResolver._store_full_response`: write the full record under
the original query name (scientific bucket), the canonical scientific name,
the vernacular name, a synonym key when `synonymType` is present and the
input differs from the scientific name, and the LSID. -/
def store_full_response (down : Bool) (st : Store) (original_name : String)
    (data : AlaRecord) : Except String Store :=
  match redis_set down st (key_scientific original_name) data with
  | .error e => .error e
  | .ok st1 =>
    match (if truthy data.scientificName then
        redis_set down st1 (key_scientific (data.scientificName.getD "")) data
      else .ok st1) with
    | .error e => .error e
    | .ok st2 =>
      match (if truthy data.vernacularName then
          redis_set down st2 (key_vernacular (data.vernacularName.getD "")) data
        else .ok st2) with
      | .error e => .error e
      | .ok st3 =>
        match (if truthy data.synonymType &&
              !(lowerStr original_name == lowerStr (data.scientificName.getD "")) then
            redis_set down st3 (key_synonym original_name) data
          else .ok st3) with
        | .error e => .error e
        | .ok st4 =>
          if truthy data.taxonConceptID then
            redis_set down st4 (key_lsid (data.taxonConceptID.getD "")) data
          else .ok st4

/-- `ALAParameterResolver._resolve_via_redis_only`: Redis-only resolution in
order LSID, exact scientific, exact vernacular, synonym, fuzzy (placeholder
`None`), prefix-lookup (placeholder `None`), negative cache. A negative-cache
hit returns `None` — the same value as a complete miss. -/
def resolve_via_redis_only (down : Bool) (st : Store) (name : String) :
    Except String (Option AlaRecord) :=
  match (if is_lsid name then redis_get down st (key_lsid name) else .ok none) with
  | .error e => .error e
  | .ok cachedL =>
    if cachedL.isSome then .ok cachedL else
    match redis_get down st (key_scientific name) with
    | .error e => .error e
    | .ok c1 =>
      if c1.isSome then .ok c1 else
      match redis_get down st (key_vernacular name) with
      | .error e => .error e
      | .ok c2 =>
        if c2.isSome then .ok c2 else
        match redis_get down st (key_synonym name) with
        | .error e => .error e
        | .ok c3 =>
          if c3.isSome then .ok c3 else
          match redis_get down st (key_no_match name) with
          | .error e => .error e
          | .ok c4 => if c4.isSome then .ok none else .ok none

/-- `is_valid_vernacular` (local function in `resolve_species_name`). -/
def is_valid_vernacular : Option AlaRecord → Bool
  | none => false
  | some d => d.success && d.matchType == some "vernacularMatch" &&
      (d.nameType == some "INFORMAL" || d.nameType == some "COMMON")

/-- `is_valid_scientific` (local function in `resolve_species_name`): only
the SAFE match types are accepted. -/
def is_valid_scientific : Option AlaRecord → Bool
  | none => false
  | some d => d.success && d.nameType == some "SCIENTIFIC" &&
      (d.matchType == some "exactMatch" || d.matchType == some "phraseMatch" ||
       d.matchType == some "taxonIdMatch")

/-- The external name-matching service: `ala_logic.search_scientific_name`
and `ala_logic.search_vernacular_name`, as functions from the queried name
to the parsed response (`none` models a falsy response). -/
structure Resolver where
  sci : String → Option AlaRecord
  vern : String → Option AlaRecord

/-- The minimal record returned for an uncached LSID
(`resolve_species_name`, step 2). -/
def minimal_lsid_record (name : String) : AlaRecord :=
  { scientificName := none, taxonConceptID := some name, rank := none,
    vernacularName := none, issues := ["noIssue"] }

/-- The negative-cache marker `{"noMatch": True}`. -/
def no_match_record : AlaRecord := { noMatch := true }

/-- Result of one `resolve_species_name` call: the returned record (or
`None`), the Redis store afterwards, and how many external name-matching
calls were made during the call. -/
structure ResolveOut where
  result : Option AlaRecord
  store : Store
  extCalls : Nat
deriving Repr, DecidableEq

/-- `ALAParameterResolver.resolve_species_name`: Redis-only resolution
first; LSID passthrough for uncached LSIDs; otherwise call BOTH external
endpoints (scientific and vernacular, never short-circuited — 2 external
calls), validate, prefer a valid vernacular match over a valid scientific
match, store an accepted result under all its keys, and negative-cache a
miss. When accepting, the stored/returned record is the endpoint response
(`Option.getD` is only evaluated under validity, which implies `some`). -/
def resolve_species_name (down : Bool) (R : Resolver) (st : Store) (name : String) :
    Except String ResolveOut :=
  match resolve_via_redis_only down st name with
  | .error e => .error e
  | .ok (some c) => .ok ⟨some c, st, 0⟩
  | .ok none =>
    if is_lsid name then .ok ⟨some (minimal_lsid_record name), st, 0⟩
    else
      let sci_data := R.sci name
      let vern_data := R.vern name
      if is_valid_vernacular vern_data then
        match store_full_response down st name (vern_data.getD {}) with
        | .error e => .error e
        | .ok st' => .ok ⟨vern_data, st', 2⟩
      else if is_valid_scientific sci_data then
        match store_full_response down st name (sci_data.getD {}) with
        | .error e => .error e
        | .ok st' => .ok ⟨sci_data, st', 2⟩
      else
        match redis_set down st (key_no_match name) no_match_record with
        | .error e => .error e
        | .ok st' => .ok ⟨none, st', 2⟩

/-- Projection: the record a `resolve_species_name` call returned (`none`
when it raised). -/
def resOf : Except String ResolveOut → Option AlaRecord
  | .ok out => out.result
  | .error _ => none

/-- Projection: the store after a `resolve_species_name` call. -/
def storeOf (dflt : Store) : Except String ResolveOut → Store
  | .ok out => out.store
  | .error _ => dflt

/-- Projection: external name-matching calls made by a
`resolve_species_name` call. -/
def callsOf : Except String ResolveOut → Nat
  | .ok out => out.extCalls
  | .error _ => 0

/-- External responses used by the C6 closed instance (a valid scientific
match and a valid vernacular match for the same species). -/
def quokka_sci_rec : AlaRecord :=
  { scientificName := some "Setonix brachyurus", success := true,
    matchType := some "exactMatch", nameType := some "SCIENTIFIC" }

/-- Vernacular-endpoint response for the C6 closed instance. -/
def quokka_vern_rec : AlaRecord :=
  { scientificName := some "Setonix brachyurus", vernacularName := some "Quokka",
    success := true, matchType := some "vernacularMatch", nameType := some "COMMON" }

/-- Name-matching service for the C6 closed instance. -/
def quokka_api : Resolver := ⟨fun _ => some quokka_sci_rec, fun _ => some quokka_vern_rec⟩

/-- Vernacular-endpoint response used in the C8 counterexample: the external
service can resolve "koala" perfectly well. -/
def koala_vern_rec : AlaRecord :=
  { scientificName := some "Phascolarctos cinereus", vernacularName := some "Koala",
    taxonConceptID := some "https://biodiversity.org.au/afd/taxa/e9d6fbbd-1505-4073-990a-dc66c930dad6",
    success := true, matchType := some "vernacularMatch", nameType := some "COMMON",
    rank := some "species" }

/-- Name-matching service used in the C8 counterexample. -/
def koala_api : Resolver := ⟨fun _ => none, fun _ => some koala_vern_rec⟩

/-- The external endpoints returning an unmatched response
(`success: False`) for every query, as for a nonsense name. -/
def unmatched_api : Resolver :=
  ⟨fun _ => some { success := false }, fun _ => some { success := false }⟩

/-- Scientific-endpoint response whose `taxonConceptID` does not match any
of the three fixed LSID URI prefixes (ALA also serves such identifiers,
e.g. NZOR ones). -/
def offsite_sci_rec : AlaRecord :=
  { scientificName := some "Moloch horridus", success := true,
    matchType := some "exactMatch", nameType := some "SCIENTIFIC",
    taxonConceptID := some "NZOR-6-1234" }

/-- Name-matching service for the C4 counterexample. -/
def offsite_api : Resolver := ⟨fun _ => some offsite_sci_rec, fun _ => none⟩

/-! ## Parameter extraction validator and `resolve_unresolved_params` -/

/-- A Python parameter value as appearing in `ALASearchResponse.params`. -/
inductive PyVal where
  | str (s : String)
  | lst (xs : List String)
  | boolv (b : Bool)
  | intv (n : Int)
deriving Repr, DecidableEq

/-- The `params` dict of `ALASearchResponse`, as an association list; later
writes shadow earlier ones. -/
abbrev Params := List (String × PyVal)

/-- `params.get(k)`. -/
def paramsGet (ps : Params) (k : String) : Option PyVal :=
  match ps.find? (fun kv => kv.1 == k) with
  | some kv => some kv.2
  | none => none

/-- `k in params` (dict key membership). -/
def hasKey (ps : Params) (k : String) : Bool := (paramsGet ps k).isSome

/-- `params[k] = v`. -/
def paramsSet (ps : Params) (k : String) (v : PyVal) : Params := (k, v) :: ps

/-- Python truthiness of `params.get(k)`. -/
def truthyV : Option PyVal → Bool
  | none => false
  | some (.str s) => !s.isEmpty
  | some (.lst xs) => !xs.isEmpty
  | some (.boolv b) => b
  | some (.intv n) => n != 0

/-- The fixed temporal trigger word list of
`ALASearchResponse.validate_params` (parameter_extractor.py). -/
def temporal_keywords : List String := ["before", "after", "since", "between", "during"]

/-- `ALASearchResponse.validate_params` (parameter_extractor.py): if the
original query contains (as a substring, lowercased) any temporal trigger
word, the extracted params must contain one of `year`, `startdate`,
`enddate`, else a `ValueError` is raised. -/
def validate_params (original_query : String) (v : Params) : Except String Params :=
  let has_temporal := temporal_keywords.any
    (fun k => strContainsSub (lowerStr original_query) k)
  if has_temporal then
    let has_temporal_param := ["year", "startdate", "enddate"].any (fun p => hasKey v p)
    if has_temporal_param then .ok v
    else .error ("Temporal query detected (\x27" ++ original_query ++
      "\x27) but no temporal parameters extracted. Must include year, startdate, or enddate.")
  else .ok v

/-- The `ALASearchResponse` pydantic model (parameter_extractor.py). -/
structure ALASearchResponse where
  params : Params
  unresolved_params : List String := []
  clarification_needed : Bool := false
  clarification_reason : String := ""
  artifact_description : String := ""
deriving Repr, DecidableEq

/-- Iteration of `_pick_species_identifier` over its fixed key list: the
first present key wins; a list value yields its first element (an empty
list, which would raise IndexError in Python, and non-string values, which
would fail downstream, are modelled as no identifier — neither arises in the
claims). -/
def pickFrom : List String → Params → Option String
  | [], _ => none
  | k :: ks, ps =>
    match paramsGet ps k with
    | some v =>
      match v with
      | .str s => some s
      | .lst xs => xs.head?
      | _ => none
    | none => pickFrom ks ps

/-- `ALAParameterResolver._pick_species_identifier`. -/
def pick_species_identifier (ps : Params) : Option String :=
  pickFrom ["scientific_name", "species_name", "common_name", "q", "id"] ps

/-- `ALAParameterResolver._add_extra_metadata`: attach vernacular/rank/
family/genus/species/kingdom from the record when present and not already in
the params. -/
def add_extra_metadata (ps : Params) (data : AlaRecord) : Params :=
  let ps1 := if truthy data.vernacularName && !(hasKey ps "common_name") then
    paramsSet ps "common_name" (.str (data.vernacularName.getD "")) else ps
  let ps2 := if truthy data.rank && !(hasKey ps1 "rank") then
    paramsSet ps1 "rank" (.str (data.rank.getD "")) else ps1
  let ps3 := if truthy data.family && !(hasKey ps2 "family") then
    paramsSet ps2 "family" (.str (data.family.getD "")) else ps2
  let ps4 := if truthy data.genus && !(hasKey ps3 "genus") then
    paramsSet ps3 "genus" (.str (data.genus.getD "")) else ps3
  let ps5 := if truthy data.species && !(hasKey ps4 "species") then
    paramsSet ps4 "species" (.str (data.species.getD "")) else ps4
  if truthy data.kingdom && !(hasKey ps5 "kingdom") then
    paramsSet ps5 "kingdom" (.str (data.kingdom.getD "")) else ps5

/-- `ALAParameterResolver.resolve_unresolved_params`: no-op when an `lsid`
param is already present; clarification request when no species identifier
can be picked or resolution finds nothing; otherwise fill in
`scientific_name`, `lsid`, `id` and extra metadata and clear the
clarification flag and reason unconditionally. -/
def resolve_unresolved_params (down : Bool) (R : Resolver) (st : Store)
    (extracted : ALASearchResponse) : Except String (ALASearchResponse × Store) :=
  if truthyV (paramsGet extracted.params "lsid") then .ok (extracted, st)
  else
    match pick_species_identifier extracted.params with
    | none =>
      .ok ({ extracted with
              clarification_needed := true,
              clarification_reason :=
                "I need a species name or LSID to proceed with this operation." }, st)
    | some sid =>
      if sid.isEmpty then
        .ok ({ extracted with
                clarification_needed := true,
                clarification_reason :=
                  "I need a species name or LSID to proceed with this operation." }, st)
      else
        match resolve_species_name down R st sid with
        | .error e => .error e
        | .ok out =>
          match out.result with
          | none =>
            .ok ({ extracted with
                    clarification_needed := true,
                    clarification_reason :=
                      "I couldn\x27t identify the species \x27" ++ sid ++
                      "\x27. Please provide a more complete scientific name, a clearer " ++
                      "common name, or the exact LSID if available." }, out.store)
          | some record =>
            let ps0 := extracted.params
            let ps1 := if truthy record.scientificName && !(hasKey ps0 "scientific_name")
              then paramsSet ps0 "scientific_name" (.str (record.scientificName.getD ""))
              else ps0
            let ps2 := if truthy record.taxonConceptID then
                paramsSet (paramsSet ps1 "lsid" (.str (record.taxonConceptID.getD "")))
                  "id" (.str (record.taxonConceptID.getD ""))
              else ps1
            let ps3 := add_extra_metadata ps2 record
            .ok ({ extracted with
                    params := ps3,
                    clarification_needed := false,
                    clarification_reason := "" }, out.store)

/-- C9: on a planning-specific failure (any exception other than
cancellation) `create_research_plan` returns the fixed fallback plan —
exactly a taxonomy lookup and an occurrence search, both must_call — instead
of raising; a cancellation signal is re-raised and never converted into the
fallback plan. -/
theorem planner_fallback_and_cancellation (species_names : List String) (m : String) :
    create_research_plan species_names (.exc m) = .returned (fallback_plan species_names) ∧
    (fallback_plan species_names).tools_planned.map (fun t => (t.tool_name, t.priority)) =
      [("lookup_species_info", "must_call"), ("search_species_occurrences", "must_call")] ∧
    create_research_plan species_names .cancelled = .raisedCancelled := by
  refine ⟨rfl, rfl, rfl⟩

/-! ### Coordinator lemmas -/

theorem raisedOf_eq_false_of_succ {r : ToolResult} (h : succOf r = true) :
    raisedOf r = false := by
  cases r <;> simp_all [succOf, raisedOf]

theorem phase1_cases (beh : String → ToolResult) :
    ∀ (ts : List ToolPlan) (ex inv : List String),
      (∀ n ∈ ex, succOf (beh n) = true) →
      (∀ t ∈ ts, toolMapNames.contains t.tool_name = true) →
      (∀ n ∈ ex, n ∈ inv) →
      (∃ ex' extra, phase1 beh ts ex inv = .next ex' (inv ++ extra) ∧
        (∀ n ∈ ex', succOf (beh n) = true) ∧
        (∀ n ∈ ex', n ∈ inv ++ extra) ∧
        (∀ k ∈ extra, succOf (beh k) = true ∧ ∃ t ∈ ts, t.tool_name = k) ∧
        (∀ t ∈ ts, succOf (beh t.tool_name) = true)) ∨
      (∃ ex' extra n, phase1 beh ts ex inv =
          .abort ex' (inv ++ (extra ++ [n]))
            ("Required operation failed: " ++ msgOf n (beh n)) ∧
        (∀ k ∈ extra, succOf (beh k) = true) ∧
        succOf (beh n) = false ∧
        (∀ k ∈ extra ++ [n], ∃ t ∈ ts, t.tool_name = k))
  | [] => by
    intro ex inv hex _ hsub
    exact .inl ⟨ex, [], by simp [phase1], hex, by simpa using hsub, by simp, by simp⟩
  | t :: rest => by
    intro ex inv hex hts hsub
    by_cases hdup : ex.contains t.tool_name
    · have hmem : t.tool_name ∈ ex := by simpa using hdup
      have hrec := phase1_cases beh rest ex inv hex
        (fun t' ht' => hts t' (List.mem_cons_of_mem t ht')) hsub
      have heq : phase1 beh (t :: rest) ex inv = phase1 beh rest ex inv := by
        simp [phase1, hmem]
      rcases hrec with ⟨ex', extra, h1, h2, h3, h4, h5⟩ | ⟨ex', extra, n, h1, h2, h3, h4⟩
      · refine .inl ⟨ex', extra, heq ▸ h1, h2, h3, ?_, ?_⟩
        · intro k hk
          obtain ⟨hsk, t', ht', hname⟩ := h4 k hk
          exact ⟨hsk, t', List.mem_cons_of_mem t ht', hname⟩
        · intro t' ht'
          rcases List.mem_cons.mp ht' with h | h
          · exact h ▸ hex _ hmem
          · exact h5 t' h
      · refine .inr ⟨ex', extra, n, heq ▸ h1, h2, h3, ?_⟩
        intro k hk
        obtain ⟨t', ht', hname⟩ := h4 k hk
        exact ⟨t', List.mem_cons_of_mem t ht', hname⟩
    · have hnot : t.tool_name ∉ ex := by simpa using hdup
      have hregt : toolMapNames.contains t.tool_name = true := hts t (List.mem_cons_self t rest)
      have hregm : t.tool_name ∈ toolMapNames := by simpa using hregt
      by_cases hs : succOf (beh t.tool_name) = true
      · have hr : raisedOf (beh t.tool_name) = false := raisedOf_eq_false_of_succ hs
        have heq : phase1 beh (t :: rest) ex inv =
            phase1 beh rest (ex ++ [t.tool_name]) (inv ++ [t.tool_name]) := by
          simp [phase1, hnot, hregm, hr, hs]
        have hex' : ∀ n ∈ ex ++ [t.tool_name], succOf (beh n) = true := by
          intro n hn
          rcases List.mem_append.mp hn with h | h
          · exact hex n h
          · simp at h; exact h ▸ hs
        have hsub' : ∀ n ∈ ex ++ [t.tool_name], n ∈ inv ++ [t.tool_name] := by
          intro n hn
          rcases List.mem_append.mp hn with h | h
          · exact List.mem_append_left _ (hsub n h)
          · exact List.mem_append_right _ h
        have hrec := phase1_cases beh rest (ex ++ [t.tool_name]) (inv ++ [t.tool_name]) hex'
          (fun t' ht' => hts t' (List.mem_cons_of_mem t ht')) hsub'
        rcases hrec with ⟨ex', extra, h1, h2, h3, h4, h5⟩ | ⟨ex', extra, n, h1, h2, h3, h4⟩
        · refine .inl ⟨ex', t.tool_name :: extra, ?_, h2, ?_, ?_, ?_⟩
          · rw [heq, h1]; simp
          · intro n hn
            have := h3 n hn
            simpa [List.append_assoc] using this
          · intro k hk
            rcases List.mem_cons.mp hk with h | h
            · exact h ▸ ⟨hs, t, List.mem_cons_self t rest, rfl⟩
            · obtain ⟨hsk, t', ht', hname⟩ := h4 k h
              exact ⟨hsk, t', List.mem_cons_of_mem t ht', hname⟩
          · intro t' ht'
            rcases List.mem_cons.mp ht' with h | h
            · exact h ▸ hs
            · exact h5 t' h
        · refine .inr ⟨ex', t.tool_name :: extra, n, ?_, ?_, h3, ?_⟩
          · rw [heq, h1]; simp
          · intro k hk
            rcases List.mem_cons.mp hk with h | h
            · exact h ▸ hs
            · exact h2 k h
          · intro k hk
            rcases List.mem_cons.mp hk with h | h
            · exact h ▸ ⟨t, List.mem_cons_self t rest, rfl⟩
            · obtain ⟨t', ht', hname⟩ := h4 k h
              exact ⟨t', List.mem_cons_of_mem t ht', hname⟩
      · replace hs : succOf (beh t.tool_name) = false := by
          cases h : succOf (beh t.tool_name) <;> simp_all
        refine .inr ⟨if raisedOf (beh t.tool_name) then ex else ex ++ [t.tool_name],
          [], t.tool_name, ?_, by simp, hs, ?_⟩
        · simp [phase1, hnot, hregm, hs]
        · intro k hk
          simp at hk
          exact hk ▸ ⟨t, List.mem_cons_self t rest, rfl⟩

theorem phase2_spec (beh : String → ToolResult) :
    ∀ (ts : List ToolPlan) (ex inv : List String),
      (∀ t ∈ ts, toolMapNames.contains t.tool_name = true) →
      (∀ n ∈ ex, n ∈ inv) →
      ∃ ex' extra, phase2 beh ts ex inv = (ex', inv ++ extra) ∧
        extra.Sublist (ts.map (fun t => t.tool_name)) ∧
        (∀ t ∈ ts, t.tool_name ∈ inv ++ extra)
  | [] => by
    intro ex inv _ _
    exact ⟨ex, [], by simp [phase2], by simp, by simp⟩
  | t :: rest => by
    intro ex inv hts hsub
    by_cases hdup : ex.contains t.tool_name
    · have hmem : t.tool_name ∈ ex := by simpa using hdup
      obtain ⟨ex', extra, h1, h2, h3⟩ := phase2_spec beh rest ex inv
        (fun t' ht' => hts t' (List.mem_cons_of_mem t ht')) hsub
      refine ⟨ex', extra, ?_, .cons _ h2, ?_⟩
      · rw [← h1]; simp [phase2, hmem]
      · intro t' ht'
        rcases List.mem_cons.mp ht' with h | h
        · exact h ▸ List.mem_append_left _ (hsub _ hmem)
        · exact h3 t' h
    · have hnot : t.tool_name ∉ ex := by simpa using hdup
      have hregt : toolMapNames.contains t.tool_name = true := hts t (List.mem_cons_self t rest)
      have hregm : t.tool_name ∈ toolMapNames := by simpa using hregt
      have hsub' : ∀ n ∈ (if raisedOf (beh t.tool_name) then ex else ex ++ [t.tool_name]),
          n ∈ inv ++ [t.tool_name] := by
        intro n hn
        split at hn
        · exact List.mem_append_left _ (hsub n hn)
        · rcases List.mem_append.mp hn with h | h
          · exact List.mem_append_left _ (hsub n h)
          · exact List.mem_append_right _ h
      obtain ⟨ex', extra, h1, h2, h3⟩ := phase2_spec beh rest
        (if raisedOf (beh t.tool_name) then ex else ex ++ [t.tool_name])
        (inv ++ [t.tool_name])
        (fun t' ht' => hts t' (List.mem_cons_of_mem t ht')) hsub'
      refine ⟨ex', t.tool_name :: extra, ?_, .cons₂ _ h2, ?_⟩
      · have heq : phase2 beh (t :: rest) ex inv =
            phase2 beh rest (if raisedOf (beh t.tool_name) then ex else ex ++ [t.tool_name])
              (inv ++ [t.tool_name]) := by
          simp [phase2, hnot, hregm]
        rw [heq, h1]; simp
      · intro t' ht'
        rcases List.mem_cons.mp ht' with h | h
        · exact h ▸ (by simp)
        · have := h3 t' h
          simpa [List.append_assoc] using this

/-- C1: for every plan (of registered tool names) containing a must_call
entry whose invocation yields a failed outcome (or raises), the coordinator
run aborts: the invocation trace is a succeeding prefix followed by exactly
one failing invocation (nothing — no remaining must_call entry and no
optional entry — runs after it), every invocation belongs to a must_call
entry, the failure message is surfaced via `context.reply`, and overall
completion is never reached. -/
theorem coordinator_mustcall_failfast (beh : String → ToolResult) (plan : List ToolPlan)
    (hreg : ∀ t ∈ plan, toolMapNames.contains t.tool_name = true)
    (hfail : ∃ t ∈ plan, t.priority = "must_call" ∧ succOf (beh t.tool_name) = false) :
    (runPlan beh plan).completed = false ∧
    (∃ pre n, (runPlan beh plan).invoked = pre ++ [n] ∧
      (∀ k ∈ pre, succOf (beh k) = true) ∧ succOf (beh n) = false ∧
      (runPlan beh plan).replies = ["Required operation failed: " ++ msgOf n (beh n)]) ∧
    (∀ k ∈ (runPlan beh plan).invoked,
      ∃ t ∈ plan, t.priority = "must_call" ∧ t.tool_name = k) := by
  have hmcreg : ∀ t ∈ plan.filter (fun t => t.priority == "must_call"),
      toolMapNames.contains t.tool_name = true :=
    fun t ht => hreg t (List.mem_filter.mp ht).1
  rcases phase1_cases beh (plan.filter (fun t => t.priority == "must_call")) [] []
      (by simp) hmcreg (by simp) with
    ⟨ex', extra, h1, _, _, _, hall⟩ | ⟨ex', extra, n, h1, hpre, hn, hmem⟩
  · exfalso
    obtain ⟨t0, ht0, ht0p, ht0f⟩ := hfail
    have ht0mc : t0 ∈ plan.filter (fun t => t.priority == "must_call") :=
      List.mem_filter.mpr ⟨ht0, by simp [ht0p]⟩
    exact absurd (hall t0 ht0mc) (by simp [ht0f])
  · have hrun : runPlan beh plan =
        ⟨[] ++ (extra ++ [n]), ex', ["Required operation failed: " ++ msgOf n (beh n)], false⟩ := by
      simp only [runPlan, h1]
    refine ⟨by rw [hrun], ⟨extra, n, by rw [hrun]; simp, hpre, hn, by rw [hrun]⟩, ?_⟩
    intro k hk
    rw [hrun] at hk
    simp only [List.nil_append] at hk
    obtain ⟨t, ht, hname⟩ := hmem k hk
    have := List.mem_filter.mp ht
    exact ⟨t, this.1, by simpa using this.2, hname⟩

/-- Closed instance of C1: a three-entry plan whose second must_call tool
fails; the run aborts after two invocations, never reaching the optional
entry. -/
theorem coordinator_mustcall_failfast_witness :
    (∀ t ∈ [ToolPlan.mk "lookup_species_info" "must_call" "info",
            ToolPlan.mk "search_species_occurrences" "must_call" "occ",
            ToolPlan.mk "get_species_images" "optional" "img"],
        toolMapNames.contains t.tool_name = true) ∧
    (∃ t ∈ [ToolPlan.mk "lookup_species_info" "must_call" "info",
            ToolPlan.mk "search_species_occurrences" "must_call" "occ",
            ToolPlan.mk "get_species_images" "optional" "img"],
        t.priority = "must_call" ∧
        succOf ((fun nm => if nm = "search_species_occurrences"
                  then ToolResult.fail "no records" else ToolResult.ok "done") t.tool_name) = false) ∧
    ((runPlan (fun nm => if nm = "search_species_occurrences"
        then ToolResult.fail "no records" else ToolResult.ok "done")
      [ToolPlan.mk "lookup_species_info" "must_call" "info",
       ToolPlan.mk "search_species_occurrences" "must_call" "occ",
       ToolPlan.mk "get_species_images" "optional" "img"]).completed = false ∧
     (∃ pre n, (runPlan (fun nm => if nm = "search_species_occurrences"
          then ToolResult.fail "no records" else ToolResult.ok "done")
        [ToolPlan.mk "lookup_species_info" "must_call" "info",
         ToolPlan.mk "search_species_occurrences" "must_call" "occ",
         ToolPlan.mk "get_species_images" "optional" "img"]).invoked = pre ++ [n] ∧
        (∀ k ∈ pre, succOf ((fun nm => if nm = "search_species_occurrences"
            then ToolResult.fail "no records" else ToolResult.ok "done") k) = true) ∧
        succOf ((fun nm => if nm = "search_species_occurrences"
            then ToolResult.fail "no records" else ToolResult.ok "done") n) = false ∧
        (runPlan (fun nm => if nm = "search_species_occurrences"
            then ToolResult.fail "no records" else ToolResult.ok "done")
          [ToolPlan.mk "lookup_species_info" "must_call" "info",
           ToolPlan.mk "search_species_occurrences" "must_call" "occ",
           ToolPlan.mk "get_species_images" "optional" "img"]).replies =
          ["Required operation failed: " ++ msgOf n ((fun nm =>
              if nm = "search_species_occurrences"
              then ToolResult.fail "no records" else ToolResult.ok "done") n)]) ∧
     (∀ k ∈ (runPlan (fun nm => if nm = "search_species_occurrences"
          then ToolResult.fail "no records" else ToolResult.ok "done")
        [ToolPlan.mk "lookup_species_info" "must_call" "info",
         ToolPlan.mk "search_species_occurrences" "must_call" "occ",
         ToolPlan.mk "get_species_images" "optional" "img"]).invoked,
        ∃ t ∈ [ToolPlan.mk "lookup_species_info" "must_call" "info",
               ToolPlan.mk "search_species_occurrences" "must_call" "occ",
               ToolPlan.mk "get_species_images" "optional" "img"],
          t.priority = "must_call" ∧ t.tool_name = k)) := by
  refine ⟨by decide, ⟨ToolPlan.mk "search_species_occurrences" "must_call" "occ",
    by decide, rfl, by decide⟩, ?_⟩
  exact coordinator_mustcall_failfast _ _ (by decide)
    ⟨ToolPlan.mk "search_species_occurrences" "must_call" "occ", by decide, rfl, by decide⟩

/-- C2: for every plan (of registered tool names) in which every must_call
entry's tool returns success, the coordinator reaches overall completion
(with no abort reply), invokes every optional entry's tool at least once
(an entry whose tool name was already executed was itself invoked earlier in
this request), and the Phase 2 invocations follow plan order — regardless of
optional-entry failures. -/
theorem coordinator_optional_execution (beh : String → ToolResult) (plan : List ToolPlan)
    (hreg : ∀ t ∈ plan, toolMapNames.contains t.tool_name = true)
    (hmc : ∀ t ∈ plan, t.priority = "must_call" → succOf (beh t.tool_name) = true) :
    (runPlan beh plan).completed = true ∧
    (runPlan beh plan).replies = [] ∧
    (∀ t ∈ plan, t.priority = "optional" → t.tool_name ∈ (runPlan beh plan).invoked) ∧
    (∃ inv1 inv2, (runPlan beh plan).invoked = inv1 ++ inv2 ∧
      (∀ k ∈ inv1, ∃ t ∈ plan, t.priority = "must_call" ∧ t.tool_name = k) ∧
      inv2.Sublist ((plan.filter (fun t => t.priority == "optional")).map
        (fun t => t.tool_name))) := by
  have hmcreg : ∀ t ∈ plan.filter (fun t => t.priority == "must_call"),
      toolMapNames.contains t.tool_name = true :=
    fun t ht => hreg t (List.mem_filter.mp ht).1
  rcases phase1_cases beh (plan.filter (fun t => t.priority == "must_call")) [] []
      (by simp) hmcreg (by simp) with
    ⟨ex', extra, h1, _, hexsub, hextra, _⟩ | ⟨ex', extra, n, h1, _, hn, hmem⟩
  · have hoptreg : ∀ t ∈ plan.filter (fun t => t.priority == "optional"),
        toolMapNames.contains t.tool_name = true :=
      fun t ht => hreg t (List.mem_filter.mp ht).1
    obtain ⟨ex2, extra2, h2, hsubl, hmemopt⟩ :=
      phase2_spec beh (plan.filter (fun t => t.priority == "optional")) ex' ([] ++ extra)
        hoptreg hexsub
    have hrun : runPlan beh plan = ⟨([] ++ extra) ++ extra2, ex2, [], true⟩ := by
      simp only [runPlan, h1, h2]
    refine ⟨by rw [hrun], by rw [hrun], ?_, ?_⟩
    · intro t ht htp
      have htopt : t ∈ plan.filter (fun t => t.priority == "optional") :=
        List.mem_filter.mpr ⟨ht, by simp [htp]⟩
      have := hmemopt t htopt
      rw [hrun]
      simpa [List.append_assoc] using this
    · refine ⟨extra, extra2, by rw [hrun]; simp, ?_, hsubl⟩
      intro k hk
      obtain ⟨hsk, t, htmc, hname⟩ := hextra k hk
      have := List.mem_filter.mp htmc
      exact ⟨t, this.1, by simpa using this.2, hname⟩
  · exfalso
    have hnm := hmem n (by simp)
    obtain ⟨t, htmc, hname⟩ := hnm
    have hf := List.mem_filter.mp htmc
    have := hmc t hf.1 (by simpa using hf.2)
    rw [hname] at this
    simp [this] at hn

/-- Closed instance of C2: one succeeding must_call entry followed by two
optional entries, the first of which fails; both optional entries are still
invoked and the run completes. -/
theorem coordinator_optional_execution_witness :
    (∀ t ∈ [ToolPlan.mk "lookup_species_info" "must_call" "info",
            ToolPlan.mk "get_species_images" "optional" "img",
            ToolPlan.mk "get_species_distribution" "optional" "map"],
        toolMapNames.contains t.tool_name = true) ∧
    (∀ t ∈ [ToolPlan.mk "lookup_species_info" "must_call" "info",
            ToolPlan.mk "get_species_images" "optional" "img",
            ToolPlan.mk "get_species_distribution" "optional" "map"],
        t.priority = "must_call" →
        succOf ((fun nm => if nm = "get_species_images"
            then ToolResult.fail "image service error" else ToolResult.ok "done")
          t.tool_name) = true) ∧
    ((runPlan (fun nm => if nm = "get_species_images"
        then ToolResult.fail "image service error" else ToolResult.ok "done")
      [ToolPlan.mk "lookup_species_info" "must_call" "info",
       ToolPlan.mk "get_species_images" "optional" "img",
       ToolPlan.mk "get_species_distribution" "optional" "map"]).completed = true ∧
     (∀ t ∈ [ToolPlan.mk "lookup_species_info" "must_call" "info",
             ToolPlan.mk "get_species_images" "optional" "img",
             ToolPlan.mk "get_species_distribution" "optional" "map"],
        t.priority = "optional" →
        t.tool_name ∈ (runPlan (fun nm => if nm = "get_species_images"
            then ToolResult.fail "image service error" else ToolResult.ok "done")
          [ToolPlan.mk "lookup_species_info" "must_call" "info",
           ToolPlan.mk "get_species_images" "optional" "img",
           ToolPlan.mk "get_species_distribution" "optional" "map"]).invoked)) := by
  refine ⟨by decide, by decide, ?_, ?_⟩
  · exact (coordinator_optional_execution _ _ (by decide) (by decide)).1
  · exact (coordinator_optional_execution _ _ (by decide) (by decide)).2.2.1

/-! ### Resolver lemmas -/

theorem redis_get_up (st : Store) (k : String) :
    redis_get false st k = .ok (storeGet st k) := rfl

theorem redis_set_up (st : Store) (k : String) (v : AlaRecord) :
    redis_set false st k v = .ok (storeSet st k v) := rfl

theorem via_false_ok (st : Store) (name : String) :
    ∃ o, resolve_via_redis_only false st name = .ok o := by
  unfold resolve_via_redis_only
  cases h : is_lsid name <;> simp only [h, redis_get_up, Bool.false_eq_true, if_false, if_true] <;>
    (repeat' split) <;> exact ⟨_, rfl⟩

theorem via_down_error (st : Store) (name : String) :
    resolve_via_redis_only true st name = .error "redis ConnectionError" := by
  unfold resolve_via_redis_only redis_get
  cases h : is_lsid name <;> simp [h]

theorem sfr_false_ok (st : Store) (name : String) (d : AlaRecord) :
    ∃ st', store_full_response false st name d = .ok st' := by
  unfold store_full_response
  simp only [redis_set_up]
  by_cases h1 : truthy d.scientificName = true <;>
    by_cases h2 : truthy d.vernacularName = true <;>
      by_cases h3 : (truthy d.synonymType &&
          !(lowerStr name == lowerStr (d.scientificName.getD ""))) = true <;>
        by_cases h4 : truthy d.taxonConceptID = true <;>
          simp [h1, h2, h3, h4]

theorem storeGet_storeSet (st : Store) (k' k : String) (v : AlaRecord) :
    storeGet (storeSet st k' v) k = if k' == k then some v else storeGet st k := by
  by_cases h : (k' == k) = true <;>
    simp [storeGet, storeSet, List.find?_cons, h]

theorem storeGet_val_eq (st : Store) (d : AlaRecord) (k : String) (v : AlaRecord)
    (hall : ∀ kv ∈ st, kv.2 = d) (h : storeGet st k = some v) : v = d := by
  unfold storeGet at h
  cases hf : st.find? (fun kv => kv.1 == k) with
  | none => rw [hf] at h; exact absurd h (by simp)
  | some kv =>
    rw [hf] at h
    have hm := List.mem_of_find?_eq_some hf
    have := hall kv hm
    simp only [Option.some.injEq] at h
    rw [← h, this]

theorem valsAll_storeSet (st : Store) (d : AlaRecord) (k : String)
    (hall : ∀ kv ∈ st, kv.2 = d) : ∀ kv ∈ storeSet st k d, kv.2 = d := by
  intro kv hkv
  rcases List.mem_cons.mp hkv with h | h
  · rw [h]
  · exact hall kv h

/-- If every record in the store is `d` and at least one of the keys that
`resolve_via_redis_only` consults for `x` is present, the Redis-only
resolution returns `d`. -/
theorem via_hit_of_all (st : Store) (d : AlaRecord) (x : String)
    (hall : ∀ kv ∈ st, kv.2 = d)
    (hhit : (storeGet st (key_scientific x)).isSome ∨
      (storeGet st (key_vernacular x)).isSome ∨
      (is_lsid x = true ∧ (storeGet st (key_lsid x)).isSome) ∨
      (storeGet st (key_synonym x)).isSome) :
    resolve_via_redis_only false st x = .ok (some d) := by
  unfold resolve_via_redis_only
  simp only [redis_get_up]
  cases hL : is_lsid x with
  | true =>
    simp only [if_true, Bool.true_eq_false]
    cases hA : storeGet st (key_lsid x) with
    | some v =>
      have := storeGet_val_eq st d _ v hall hA
      simp [hA, this]
    | none =>
      simp only [hA, Option.isSome_none, Bool.false_eq_true, if_false]
      cases hB : storeGet st (key_scientific x) with
      | some v =>
        have := storeGet_val_eq st d _ v hall hB
        simp [hB, this]
      | none =>
        simp only [hB, Option.isSome_none, Bool.false_eq_true, if_false]
        cases hC : storeGet st (key_vernacular x) with
        | some v =>
          have := storeGet_val_eq st d _ v hall hC
          simp [hC, this]
        | none =>
          simp only [hC, Option.isSome_none, Bool.false_eq_true, if_false]
          cases hD : storeGet st (key_synonym x) with
          | some v =>
            have := storeGet_val_eq st d _ v hall hD
            simp [hD, this]
          | none =>
            exfalso
            rcases hhit with h | h | ⟨_, h⟩ | h <;> simp_all
  | false =>
    simp only [Bool.false_eq_true, if_false]
    cases hB : storeGet st (key_scientific x) with
    | some v =>
      have := storeGet_val_eq st d _ v hall hB
      simp [hB, this]
    | none =>
      simp only [hB, Option.isSome_none, Bool.false_eq_true, if_false]
      cases hC : storeGet st (key_vernacular x) with
      | some v =>
        have := storeGet_val_eq st d _ v hall hC
        simp [hC, this]
      | none =>
        simp only [hC, Option.isSome_none, Bool.false_eq_true, if_false]
        cases hD : storeGet st (key_synonym x) with
        | some v =>
          have := storeGet_val_eq st d _ v hall hD
          simp [hD, this]
        | none =>
          exfalso
          rcases hhit with h | h | ⟨hl, h⟩ | h <;> simp_all

/-- A cache hit makes `resolve_species_name` return it with no external
call and no store change. -/
theorem resolve_of_cached (R : Resolver) (st : Store) (name : String) (d : AlaRecord)
    (h : resolve_via_redis_only false st name = .ok (some d)) :
    resolve_species_name false R st name = .ok ⟨some d, st, 0⟩ := by
  unfold resolve_species_name
  rw [h]

/-- C5: for every identifier matching one of the fixed LSID URI prefixes,
`resolve_species_name` makes no external name-matching call, and when the
cache has no entry for it, it returns the minimal record whose
`taxonConceptID` is the input and whose other name fields are empty, rather
than failing. -/
theorem resolver_lsid_passthrough (R : Resolver) (st : Store) (name : String)
    (h : is_lsid name = true) :
    callsOf (resolve_species_name false R st name) = 0 ∧
    (resolve_via_redis_only false st name = .ok none →
      resolve_species_name false R st name =
        .ok ⟨some (minimal_lsid_record name), st, 0⟩) ∧
    (minimal_lsid_record name).taxonConceptID = some name ∧
    (minimal_lsid_record name).scientificName = none ∧
    (minimal_lsid_record name).vernacularName = none ∧
    (minimal_lsid_record name).rank = none := by
  obtain ⟨o, ho⟩ := via_false_ok st name
  cases o with
  | some c =>
    have hres := resolve_of_cached R st name c ho
    refine ⟨by simp [callsOf, hres], ?_, rfl, rfl, rfl, rfl⟩
    intro h'
    rw [ho] at h'
    exact absurd h' (by simp)
  | none =>
    have hres : resolve_species_name false R st name =
        .ok ⟨some (minimal_lsid_record name), st, 0⟩ := by
      unfold resolve_species_name
      rw [ho]
      simp [h]
    exact ⟨by simp [callsOf, hres], fun _ => hres, rfl, rfl, rfl, rfl⟩

/-- Closed instance of C5: an uncached AFD taxon LSID resolves to the
minimal record with zero external calls. -/
theorem resolver_lsid_passthrough_witness :
    is_lsid "https://biodiversity.org.au/afd/taxa/7e6e134b-2bc7-43c4-b23a-6e3f420f57ad" = true ∧
    callsOf (resolve_species_name false ⟨fun _ => none, fun _ => none⟩ []
      "https://biodiversity.org.au/afd/taxa/7e6e134b-2bc7-43c4-b23a-6e3f420f57ad") = 0 ∧
    resolve_species_name false ⟨fun _ => none, fun _ => none⟩ []
        "https://biodiversity.org.au/afd/taxa/7e6e134b-2bc7-43c4-b23a-6e3f420f57ad" =
      .ok ⟨some (minimal_lsid_record
        "https://biodiversity.org.au/afd/taxa/7e6e134b-2bc7-43c4-b23a-6e3f420f57ad"), [], 0⟩ := by
  have h := resolver_lsid_passthrough ⟨fun _ => none, fun _ => none⟩ []
    "https://biodiversity.org.au/afd/taxa/7e6e134b-2bc7-43c4-b23a-6e3f420f57ad" (by decide)
  exact ⟨by decide, h.1, h.2.1 rfl⟩

/-- C6: on a cache miss for a non-LSID identifier, `resolve_species_name`
calls both external endpoints (2 calls, never short-circuited), accepts a
vernacular result exactly when `matchType` is vernacularMatch with an
INFORMAL/COMMON name-type, accepts a scientific result exactly when
`matchType` is exactMatch/phraseMatch/taxonIdMatch with a SCIENTIFIC
name-type, rejects everything else (negative result), and prefers the
vernacular result when both are acceptable. -/
theorem resolver_dual_endpoint_priority (R : Resolver) (st : Store) (name : String)
    (hmiss : resolve_via_redis_only false st name = .ok none)
    (hlsid : is_lsid name = false) :
    callsOf (resolve_species_name false R st name) = 2 ∧
    (is_valid_vernacular (R.vern name) = true →
      resOf (resolve_species_name false R st name) = R.vern name) ∧
    (is_valid_vernacular (R.vern name) = false →
      is_valid_scientific (R.sci name) = true →
      resOf (resolve_species_name false R st name) = R.sci name) ∧
    (is_valid_vernacular (R.vern name) = false →
      is_valid_scientific (R.sci name) = false →
      resOf (resolve_species_name false R st name) = none) ∧
    (∀ d : AlaRecord, is_valid_vernacular (some d) = true ↔
      (d.success = true ∧ d.matchType = some "vernacularMatch" ∧
        (d.nameType = some "INFORMAL" ∨ d.nameType = some "COMMON"))) ∧
    (∀ d : AlaRecord, is_valid_scientific (some d) = true ↔
      (d.success = true ∧ d.nameType = some "SCIENTIFIC" ∧
        (d.matchType = some "exactMatch" ∨ d.matchType = some "phraseMatch" ∨
         d.matchType = some "taxonIdMatch"))) := by
  have hiv : ∀ d : AlaRecord, is_valid_vernacular (some d) = true ↔
      (d.success = true ∧ d.matchType = some "vernacularMatch" ∧
        (d.nameType = some "INFORMAL" ∨ d.nameType = some "COMMON")) := by
    intro d
    simp [is_valid_vernacular, Bool.and_eq_true, Bool.or_eq_true, and_assoc]
  have his : ∀ d : AlaRecord, is_valid_scientific (some d) = true ↔
      (d.success = true ∧ d.nameType = some "SCIENTIFIC" ∧
        (d.matchType = some "exactMatch" ∨ d.matchType = some "phraseMatch" ∨
         d.matchType = some "taxonIdMatch")) := by
    intro d
    simp [is_valid_scientific, Bool.and_eq_true, Bool.or_eq_true, and_assoc, or_assoc]
  cases hv : is_valid_vernacular (R.vern name) with
  | true =>
    obtain ⟨st', hst'⟩ := sfr_false_ok st name ((R.vern name).getD {})
    have hres : resolve_species_name false R st name = .ok ⟨R.vern name, st', 2⟩ := by
      unfold resolve_species_name
      rw [hmiss]
      simp [hlsid, hv, hst']
    refine ⟨by simp [callsOf, hres], fun _ => by simp [resOf, hres], ?_, ?_, hiv, his⟩
    · intro hv' _
      exact absurd hv' (by simp [hv])
    · intro hv' _
      exact absurd hv' (by simp [hv])
  | false =>
    cases hs : is_valid_scientific (R.sci name) with
    | true =>
      obtain ⟨st', hst'⟩ := sfr_false_ok st name ((R.sci name).getD {})
      have hres : resolve_species_name false R st name = .ok ⟨R.sci name, st', 2⟩ := by
        unfold resolve_species_name
        rw [hmiss]
        simp [hlsid, hv, hs, hst']
      refine ⟨by simp [callsOf, hres], ?_, fun _ _ => by simp [resOf, hres], ?_, hiv, his⟩
      · intro hv'
        exact absurd hv' (by simp [hv])
      · intro _ hs'
        exact absurd hs' (by simp [hs])
    | false =>
      have hres : resolve_species_name false R st name =
          .ok ⟨none, storeSet st (key_no_match name) no_match_record, 2⟩ := by
        unfold resolve_species_name
        rw [hmiss]
        simp [hlsid, hv, hs, redis_set_up]
      refine ⟨by simp [callsOf, hres], ?_, ?_, fun _ _ => by simp [resOf, hres], hiv, his⟩
      · intro hv'
        exact absurd hv' (by simp [hv])
      · intro _ hs'
        exact absurd hs' (by simp [hs])

/-- Closed instance of C6: for "quokka" both endpoints return acceptable
records and the vernacular one wins; 2 external calls are made. -/
theorem resolver_dual_endpoint_priority_witness :
    resolve_via_redis_only false [] "quokka" = .ok none ∧
    is_lsid "quokka" = false ∧
    callsOf (resolve_species_name false quokka_api [] "quokka") = 2 ∧
    resOf (resolve_species_name false quokka_api [] "quokka") = some quokka_vern_rec := by
  have h := resolver_dual_endpoint_priority quokka_api [] "quokka" rfl (by decide)
  exact ⟨rfl, by decide, h.1, h.2.1 (by decide)⟩

/-- C8, as the code actually behaves: when the Redis client is unavailable,
the very first cache `get` inside `resolve_species_name` raises and the
exception propagates to the caller — no fallback to the external
name-matching service exists, and no external call is made before the
raise. -/
theorem cache_failure_propagates (R : Resolver) (st : Store) (name : String) :
    resolve_species_name true R st name = .error "redis ConnectionError" := by
  unfold resolve_species_name
  rw [via_down_error]

/-- Counterexample to C8 as stated: with the cache store down, resolving
"koala" raises the cache error instead of falling back to the external
service — even though (second conjunct) the external service would have
resolved it had the cache been up. -/
theorem cache_failure_counterexample :
    resolve_species_name true koala_api [] "koala" = .error "redis ConnectionError" ∧
    resOf (resolve_species_name false koala_api [] "koala") = some koala_vern_rec := by
  exact ⟨rfl, rfl⟩

/-- C3, evaluated at the failing input: resolving "xyzzyqwerty" once fails
and writes the negative-cache marker under `noMatch:xyzzyqwerty`; but a
second `resolve_species_name` with the identical input, although it returns
absent, makes 2 fresh external name-matching calls — the negative-cache hit
is returned as `None` by `_resolve_via_redis_only`, indistinguishable from
a miss, so `resolve_species_name` falls through to the external APIs. -/
theorem negative_cache_not_consulted :
    resOf (resolve_species_name false unmatched_api [] "xyzzyqwerty") = none ∧
    storeGet (storeOf [] (resolve_species_name false unmatched_api [] "xyzzyqwerty"))
      (key_no_match "xyzzyqwerty") = some no_match_record ∧
    resOf (resolve_species_name false unmatched_api
      (storeOf [] (resolve_species_name false unmatched_api [] "xyzzyqwerty"))
      "xyzzyqwerty") = none ∧
    callsOf (resolve_species_name false unmatched_api
      (storeOf [] (resolve_species_name false unmatched_api [] "xyzzyqwerty"))
      "xyzzyqwerty") = 2 := by
  exact ⟨rfl, by decide, rfl, rfl⟩

theorem isSome_set_self (st : Store) (k : String) (v : AlaRecord) :
    (storeGet (storeSet st k v) k).isSome := by
  rw [storeGet_storeSet]
  simp

theorem isSome_after_set {st : Store} {k : String} (k' : String) (v : AlaRecord)
    (h : (storeGet st k).isSome) : (storeGet (storeSet st k' v) k).isSome := by
  rw [storeGet_storeSet]
  split
  · simp
  · exact h

theorem storeGet_eq_d_of_isSome (st : Store) (d : AlaRecord) (k : String)
    (hall : ∀ kv ∈ st, kv.2 = d) (h : (storeGet st k).isSome) :
    storeGet st k = some d := by
  cases hg : storeGet st k with
  | none => rw [hg] at h; cases h
  | some v =>
    have := storeGet_val_eq st d k v hall hg
    rw [this]

theorem via_empty (name : String) : resolve_via_redis_only false [] name = .ok none := by
  unfold resolve_via_redis_only
  cases h : is_lsid name <;> simp [h, redis_get_up, storeGet]

set_option maxHeartbeats 2000000 in
/-- Everything `_store_full_response` writes is the record `data`, and every
alias key the source writes is afterwards present in the store. -/
theorem store_full_props (st : Store) (name : String) (d : AlaRecord) (st' : Store)
    (h : store_full_response false st name d = .ok st')
    (hall : ∀ kv ∈ st, kv.2 = d) :
    (∀ kv ∈ st', kv.2 = d) ∧
    (storeGet st' (key_scientific name)).isSome ∧
    (truthy d.scientificName = true →
      (storeGet st' (key_scientific (d.scientificName.getD ""))).isSome) ∧
    (truthy d.vernacularName = true →
      (storeGet st' (key_vernacular (d.vernacularName.getD ""))).isSome) ∧
    (truthy d.taxonConceptID = true →
      (storeGet st' (key_lsid (d.taxonConceptID.getD ""))).isSome) ∧
    ((truthy d.synonymType &&
        !(lowerStr name == lowerStr (d.scientificName.getD ""))) = true →
      (storeGet st' (key_synonym name)).isSome) := by
  unfold store_full_response at h
  simp only [redis_set_up] at h
  by_cases h1 : truthy d.scientificName = true <;>
    by_cases h2 : truthy d.vernacularName = true <;>
      by_cases h3 : (truthy d.synonymType &&
          !(lowerStr name == lowerStr (d.scientificName.getD ""))) = true <;>
        by_cases h4 : truthy d.taxonConceptID = true <;>
          simp only [h1, h2, h3, h4, if_true, if_false, Bool.false_eq_true,
            eq_self_iff_true, Except.ok.injEq, ite_true, ite_false,
            Bool.true_eq_false, not_true, not_false_iff] at h <;>
          (try subst h) <;>
          refine ⟨?_, ?_, ?_, ?_, ?_, ?_⟩ <;>
            first
              | ((repeat' apply valsAll_storeSet); exact hall)
              | ((repeat' first
                  | exact isSome_set_self _ _ _
                  | apply isSome_after_set); done)
              | (intro hC; first
                  | exact absurd hC h1
                  | exact absurd hC h2
                  | exact absurd hC h3
                  | exact absurd hC h4
                  | ((repeat' first
                      | exact isSome_set_self _ _ _
                      | apply isSome_after_set); done))

/-- C4 (amended): every non-LSID input resolved successfully from an empty
cache via the external matching service has its record stored under the
literal input, the canonical scientific name, the vernacular name (when
present), a synonym key (when the input is a recognized synonym), and the
LSID; a second `resolve_species_name` with the identical input, the
scientific-name alias or the vernacular-name alias returns the cached record
with zero external calls, and likewise with the LSID alias provided the LSID
matches one of the fixed LSID URI prefixes. -/
theorem resolver_alias_caching (R : Resolver) (name : String) (d : AlaRecord)
    (out : ResolveOut)
    (hlsid : is_lsid name = false)
    (h1 : resolve_species_name false R [] name = .ok out)
    (h2 : out.result = some d) :
    storeGet out.store (key_scientific name) = some d ∧
    (truthy d.scientificName = true →
      storeGet out.store (key_scientific (d.scientificName.getD "")) = some d) ∧
    (truthy d.vernacularName = true →
      storeGet out.store (key_vernacular (d.vernacularName.getD "")) = some d) ∧
    (truthy d.taxonConceptID = true →
      storeGet out.store (key_lsid (d.taxonConceptID.getD "")) = some d) ∧
    ((truthy d.synonymType &&
        !(lowerStr name == lowerStr (d.scientificName.getD ""))) = true →
      storeGet out.store (key_synonym name) = some d) ∧
    resolve_species_name false R out.store name = .ok ⟨some d, out.store, 0⟩ ∧
    (truthy d.scientificName = true →
      resolve_species_name false R out.store (d.scientificName.getD "") =
        .ok ⟨some d, out.store, 0⟩) ∧
    (truthy d.vernacularName = true →
      resolve_species_name false R out.store (d.vernacularName.getD "") =
        .ok ⟨some d, out.store, 0⟩) ∧
    (truthy d.taxonConceptID = true → is_lsid (d.taxonConceptID.getD "") = true →
      resolve_species_name false R out.store (d.taxonConceptID.getD "") =
        .ok ⟨some d, out.store, 0⟩) := by
  have hsfr : store_full_response false [] name d = .ok out.store := by
    unfold resolve_species_name at h1
    rw [via_empty name] at h1
    simp only [hlsid, Bool.false_eq_true, if_false] at h1
    cases hv : is_valid_vernacular (R.vern name) with
    | true =>
      rw [hv] at h1
      simp only [if_true] at h1
      obtain ⟨st', hst'⟩ := sfr_false_ok [] name ((R.vern name).getD {})
      rw [hst'] at h1
      simp only [Except.ok.injEq] at h1
      have hvd : R.vern name = some d := by
        rw [← h1] at h2
        simpa using h2
      rw [← h1]
      rw [hvd] at hst'
      simpa using hst'
    | false =>
      rw [hv] at h1
      simp only [Bool.false_eq_true, if_false] at h1
      cases hs : is_valid_scientific (R.sci name) with
      | true =>
        rw [hs] at h1
        simp only [if_true] at h1
        obtain ⟨st', hst'⟩ := sfr_false_ok [] name ((R.sci name).getD {})
        rw [hst'] at h1
        simp only [Except.ok.injEq] at h1
        have hsd : R.sci name = some d := by
          rw [← h1] at h2
          simpa using h2
        rw [← h1]
        rw [hsd] at hst'
        simpa using hst'
      | false =>
        rw [hs] at h1
        simp only [Bool.false_eq_true, if_false, redis_set_up, Except.ok.injEq] at h1
        rw [← h1] at h2
        simp at h2
  obtain ⟨hall, hk0, hk1, hk2, hk3, hk4⟩ :=
    store_full_props [] name d out.store hsfr (by simp)
  have hGet : ∀ k : String, (storeGet out.store k).isSome →
      storeGet out.store k = some d :=
    fun k hk => storeGet_eq_d_of_isSome out.store d k hall hk
  refine ⟨hGet _ hk0, fun h => hGet _ (hk1 h), fun h => hGet _ (hk2 h),
    fun h => hGet _ (hk3 h), fun h => hGet _ (hk4 h), ?_, ?_, ?_, ?_⟩
  · exact resolve_of_cached R out.store name d
      (via_hit_of_all out.store d name hall (.inl hk0))
  · intro h
    exact resolve_of_cached R out.store _ d
      (via_hit_of_all out.store d _ hall (.inl (hk1 h)))
  · intro h
    exact resolve_of_cached R out.store _ d
      (via_hit_of_all out.store d _ hall (.inr (.inl (hk2 h))))
  · intro h hL
    exact resolve_of_cached R out.store _ d
      (via_hit_of_all out.store d _ hall (.inr (.inr (.inl ⟨hL, hk3 h⟩))))

/-- Counterexample to C4 as stated: "thorny devil" resolves successfully and
the record is stored under its LSID key `lsid:NZOR-6-1234`; yet a second
resolve call with that LSID alias makes 2 fresh external name-matching
calls, because `_is_lsid` does not recognize the identifier and the lsid
cache bucket is only consulted for identifiers matching the three fixed
prefixes. -/
theorem resolver_alias_caching_counterexample :
    resOf (resolve_species_name false offsite_api [] "thorny devil") =
      some offsite_sci_rec ∧
    offsite_sci_rec.taxonConceptID = some "NZOR-6-1234" ∧
    storeGet (storeOf [] (resolve_species_name false offsite_api [] "thorny devil"))
      (key_lsid "NZOR-6-1234") = some offsite_sci_rec ∧
    callsOf (resolve_species_name false offsite_api
      (storeOf [] (resolve_species_name false offsite_api [] "thorny devil"))
      "NZOR-6-1234") = 2 := by
  exact ⟨rfl, rfl, by decide, rfl⟩

/-- Closed instance of the amended C4: "koala" resolves to a vernacular
record with a prefix-matching LSID; afterwards the identical input, the
scientific name, the vernacular name and the LSID all resolve from the
cache with zero external calls. -/
theorem resolver_alias_caching_witness :
    is_lsid "koala" = false ∧
    (resolve_species_name false koala_api [] "koala" =
      .ok ⟨some koala_vern_rec,
        storeOf [] (resolve_species_name false koala_api [] "koala"), 2⟩) ∧
    koala_vern_rec.scientificName = some "Phascolarctos cinereus" ∧
    koala_vern_rec.vernacularName = some "Koala" ∧
    (resolve_species_name false koala_api
        (storeOf [] (resolve_species_name false koala_api [] "koala")) "koala" =
      .ok ⟨some koala_vern_rec,
        storeOf [] (resolve_species_name false koala_api [] "koala"), 0⟩) ∧
    (resolve_species_name false koala_api
        (storeOf [] (resolve_species_name false koala_api [] "koala"))
        "Phascolarctos cinereus" =
      .ok ⟨some koala_vern_rec,
        storeOf [] (resolve_species_name false koala_api [] "koala"), 0⟩) ∧
    (resolve_species_name false koala_api
        (storeOf [] (resolve_species_name false koala_api [] "koala")) "Koala" =
      .ok ⟨some koala_vern_rec,
        storeOf [] (resolve_species_name false koala_api [] "koala"), 0⟩) ∧
    (resolve_species_name false koala_api
        (storeOf [] (resolve_species_name false koala_api [] "koala"))
        "https://biodiversity.org.au/afd/taxa/e9d6fbbd-1505-4073-990a-dc66c930dad6" =
      .ok ⟨some koala_vern_rec,
        storeOf [] (resolve_species_name false koala_api [] "koala"), 0⟩) := by
  have h := resolver_alias_caching koala_api "koala" koala_vern_rec
    ⟨some koala_vern_rec,
      storeOf [] (resolve_species_name false koala_api [] "koala"), 2⟩
    (by decide) rfl rfl
  exact ⟨by decide, rfl, rfl, rfl, h.2.2.2.2.2.1,
    h.2.2.2.2.2.2.1 (by decide), h.2.2.2.2.2.2.2.1 (by decide),
    h.2.2.2.2.2.2.2.2 (by decide) (by decide)⟩

/-- C7 (amended): for every query containing one of the validator's actual
trigger words — before, after, since, between, during (substring match;
"post" is not among them) — an extracted parameter set lacking all of
`year`, `startdate`, `enddate` (a month filter does not count) is rejected
by `validate_params` with the temporal-query error. -/
theorem validate_params_rejects_missing_temporal (q : String) (ps : Params)
    (htrig : (temporal_keywords.any (fun k => strContainsSub (lowerStr q) k)) = true)
    (hnone : (["year", "startdate", "enddate"].any (fun p => hasKey ps p)) = false) :
    validate_params q ps = .error ("Temporal query detected (\x27" ++ q ++
      "\x27) but no temporal parameters extracted. Must include year, startdate, or enddate.") := by
  unfold validate_params
  simp only [htrig, hnone, if_true, Bool.false_eq_true, if_false]

/-- Counterexample to C7 as stated: "post" is not a trigger word of
`validate_params` — a post-dated query with no temporal parameter is
accepted — and a month filter does not satisfy the validator for a genuine
trigger word ("during"). -/
theorem validate_params_counterexample :
    strContainsSub (lowerStr "Count occurrences of Eucalyptus post 2015") "post" = true ∧
    hasKey [("q", PyVal.str "Eucalyptus")] "year" = false ∧
    hasKey [("q", PyVal.str "Eucalyptus")] "startdate" = false ∧
    hasKey [("q", PyVal.str "Eucalyptus")] "enddate" = false ∧
    validate_params "Count occurrences of Eucalyptus post 2015"
      [("q", PyVal.str "Eucalyptus")] = .ok [("q", PyVal.str "Eucalyptus")] ∧
    strContainsSub (lowerStr "Koala sightings during summer") "during" = true ∧
    hasKey [("q", PyVal.str "koala"), ("month", PyVal.str "12")] "month" = true ∧
    validate_params "Koala sightings during summer"
      [("q", PyVal.str "koala"), ("month", PyVal.str "12")] =
      .error ("Temporal query detected (\x27Koala sightings during summer\x27) but no " ++
        "temporal parameters extracted. Must include year, startdate, or enddate.") := by
  exact ⟨by decide, by decide, by decide, by decide, rfl, by decide, by decide, rfl⟩

/-- Closed instance of the amended C7: "before 2018" with no temporal
parameter is rejected. -/
theorem validate_params_rejects_missing_temporal_witness :
    (temporal_keywords.any
      (fun k => strContainsSub (lowerStr "Koala sightings before 2018") k)) = true ∧
    (["year", "startdate", "enddate"].any
      (fun p => hasKey [("q", PyVal.str "koala")] p)) = false ∧
    validate_params "Koala sightings before 2018" [("q", PyVal.str "koala")] =
      .error ("Temporal query detected (\x27Koala sightings before 2018\x27) but no " ++
        "temporal parameters extracted. Must include year, startdate, or enddate.") := by
  refine ⟨by decide, by decide, ?_⟩
  have h := validate_params_rejects_missing_temporal "Koala sightings before 2018"
    [("q", PyVal.str "koala")] (by decide) (by decide)
  exact h

/-- C10: whenever the picked species identifier resolves successfully,
`resolve_unresolved_params` returns the query with `clarification_needed`
false and `clarification_reason` empty — unconditionally overwriting any
clarification flag and reason the extractor had set, whatever they
concerned. -/
theorem resolve_unresolved_overwrites_clarification (R : Resolver) (st : Store)
    (e : ALASearchResponse) (sid : String) (out : ResolveOut) (rec : AlaRecord)
    (h0 : truthyV (paramsGet e.params "lsid") = false)
    (h1 : pick_species_identifier e.params = some sid)
    (h2 : sid.isEmpty = false)
    (h3 : resolve_species_name false R st sid = .ok out)
    (h4 : out.result = some rec) :
    ∃ e' st', resolve_unresolved_params false R st e = .ok (e', st') ∧
      e'.clarification_needed = false ∧ e'.clarification_reason = "" := by
  unfold resolve_unresolved_params
  simp only [h0, Bool.false_eq_true, if_false, h1, h2, h3, h4]
  exact ⟨_, _, rfl, rfl, rfl⟩

/-- Closed instance of C10: the extractor had flagged a clarification about
an ambiguous location, yet after "koala" resolves the flag and reason are
cleared. -/
theorem resolve_unresolved_overwrites_clarification_witness :
    truthyV (paramsGet [("q", PyVal.str "koala")] "lsid") = false ∧
    pick_species_identifier [("q", PyVal.str "koala")] = some "koala" ∧
    "koala".isEmpty = false ∧
    (∃ e' st', resolve_unresolved_params false koala_api []
        { params := [("q", PyVal.str "koala")],
          unresolved_params := ["location"],
          clarification_needed := true,
          clarification_reason := "Location is ambiguous" } = .ok (e', st') ∧
      e'.clarification_needed = false ∧ e'.clarification_reason = "") := by
  refine ⟨by decide, by decide, by decide, ?_⟩
  exact resolve_unresolved_overwrites_clarification koala_api []
    { params := [("q", PyVal.str "koala")],
      unresolved_params := ["location"],
      clarification_needed := true,
      clarification_reason := "Location is ambiguous" }
    "koala"
    ⟨some koala_vern_rec, storeOf [] (resolve_species_name false koala_api [] "koala"), 2⟩
    koala_vern_rec (by decide) (by decide) (by decide) rfl rfl
